import Mathlib

/-!
Verification of the content-ingestion layer of the gojekyll static-site
generator: the page classifier (page.go), the file helpers
(helpers/file.go) and the front-matter accessors.

The Go code is shallowly embedded: files are lists of bytes (Nat < 256 in
practice; nothing depends on the bound), Go error values are an inductive
type, Go panics are modelled with Except Unit, and filesystem state is
passed explicitly.  Functions keep the source names where Lean allows.
-/

namespace Gojekyll

/-- Go error values, as used by the helpers package: io.EOF, a raw
syscall.Errno, an errors.New-style opaque error, and os.PathError
(operation, path, underlying cause).  A Go nil error is modelled as
Option.none at use sites. -/
inductive GoErr where
  | eof : GoErr
  | errno (n : Nat) : GoErr
  | simple (msg : String) : GoErr
  | pathError (op : String) (path : String) (cause : GoErr) : GoErr
deriving DecidableEq, Repr

/-- syscall.ENOENT on the target platform. -/
def ENOENT : Nat := 2

/-- syscall.ENOTEMPTY on the target platform. -/
def ENOTEMPTY : Nat := 39

/-- os.IsNotExist: reports whether the error indicates that a file or
directory does not exist (unwrapping one os.PathError layer). -/
def isNotExistB : GoErr → Bool
  | GoErr.errno n => n == ENOENT
  | GoErr.pathError _ _ (GoErr.errno n) => n == ENOENT
  | _ => false

/-- helpers.IsNotEmpty (helpers/file.go:92-97):

  func IsNotEmpty(err error) bool {
      if err, ok := err.(*os.PathError); ok {
          return err.Err.(syscall.Errno) == syscall.ENOTEMPTY
      }
      return false
  }

The inner type assertion err.Err.(syscall.Errno) is unchecked: when the
wrapped cause is not a syscall.Errno it panics.  A Go panic is modelled
as Except.error (). -/
def isNotEmpty : Option GoErr → Except Unit Bool
  | some (GoErr.pathError _ _ cause) =>
    match cause with
    | GoErr.errno n => Except.ok (n == ENOTEMPTY)
    | _ => Except.error ()
  | _ => Except.ok false

/-- shape test used by the PathError type switch (helpers/file.go:111). -/
def isPathErrB : GoErr → Bool
  | GoErr.pathError _ _ _ => true
  | _ => false

/-- shape test: is the error a raw syscall.Errno. -/
def isErrnoB : GoErr → Bool
  | GoErr.errno _ => true
  | _ => false

/-- helpers.PathError (helpers/file.go:107-117): returns nil for nil,
returns an os.PathError argument unchanged, and otherwise wraps the
argument into an os.PathError with operation "read" and the given path
(the op parameter is accepted but not consulted by the wrapping branch,
exactly as in the source). -/
def pathErrorFn (err : Option GoErr) (_op name : String) : Option GoErr :=
  match err with
  | none => none
  | some e => if isPathErrB e then some e else some (GoErr.pathError "read" name e)

/-- result of helpers.ReadFileMagic on a file that could be opened:
the 4-byte buffer and the error of the named return. -/
structure MagicResult where
  data : List Nat
  err : Option GoErr
deriving DecidableEq, Repr

/-- a single Go f.Read(buf) call with len(buf) = bufLen at offset 0 of a
regular file with the given contents: returns the byte count and error.
An empty file yields (0, io.EOF); otherwise up to bufLen bytes are read
with a nil error. -/
def fileRead (contents : List Nat) (bufLen : Nat) : Nat × Option GoErr :=
  if contents.length = 0 then (0, some GoErr.eof)
  else (min bufLen contents.length, none)

/-- helpers.ReadFileMagic (helpers/file.go:55-72), applied to the
contents of a file that exists.  data := make([]byte, 4) is a zero-filled
4-byte buffer; f.Read fills its first n bytes and the byte count n is
discarded (the source binds it to the blank identifier); io.EOF is
squashed to nil; finally a carriage return in the fourth slot is
rewritten to a line feed. -/
def readFileMagic (contents : List Nat) : MagicResult :=
  let data := contents.take 4 ++ List.replicate (4 - min 4 contents.length) 0
  let rerr := (fileRead contents 4).2
  let rerr := if rerr = some GoErr.eof then none else rerr
  let data := if data.getD 3 0 == 13 then data.set 3 10 else data
  { data := data, err := rerr }

/-- the front-matter opening marker bytes, "---\n". -/
def magicBytes : List Nat := [45, 45, 45, 10]

/-- front-matter detection as performed by ReadPage (page.go:74):
string(magic) == "---\n" on the buffer returned by ReadFileMagic. -/
def hasMagicB (contents : List Nat) : Bool :=
  (readFileMagic contents).data == magicBytes

/-- the normalization the claim describes: rewrite a carriage return in
the fourth position to a line feed. -/
def normalizeFourth (bs : List Nat) : List Nat :=
  if bs.getD 3 0 == 13 then bs.set 3 10 else bs

/-- outcome of one helpers.VisitCreatedFile execution: how many times
the created stream was closed, and the returned error. -/
structure VisitOutcome where
  closes : Nat
  ret : Option GoErr
deriving DecidableEq, Repr

/-- helpers.VisitCreatedFile (helpers/file.go:13-29).  The interactions
with the outside world are abstracted into their outcomes: createErr is
the os.Create result, wErr the write routine result on the stream, and
closeErr the f.Close result.  The deferred close runs (once) when the
write routine fails and its error is discarded; on success the close
flag is cleared and the explicit f.Close result is returned. -/
def visitCreatedFile (_name : String) (createErr : Option GoErr)
    (wErr : Option GoErr) (closeErr : Option GoErr) : VisitOutcome :=
  match createErr with
  | some e => { closes := 0, ret := some e }
  | none =>
    match wErr with
    | some e => { closes := 1, ret := some e }
    | none => { closes := 1, ret := closeErr }

/-- a dynamically-typed YAML-ish front-matter value (the interface value
of Go map[string]interface, restricted to the shapes the program
distinguishes: string, bool, integer, timestamp, sequence). -/
inductive Value where
  | s (v : String) : Value
  | b (v : Bool) : Value
  | i (v : Int) : Value
  | time (v : Nat) : Value
  | list (vs : List Value) : Value

/-- VariableMap / FrontMatter: a map from string keys to values,
modelled as an association list looked up front-to-back (Go maps have
unique keys; the merge below keeps the winning binding in front). -/
abbrev VarMap : Type := List (String × Value)

/-- lookup of a key in a VariableMap. -/
def lookupVM (m : VarMap) (k : String) : Option Value :=
  List.lookup k m

/-- Modelled from the spec: helpers.MergeVariableMaps is code of this
repository that is not under src/.  Per the spec it is a key-by-key
union in which the second argument's bindings take precedence over the
first's.  With front-to-back lookup, listing b before a realizes that. -/
def mergeVariableMaps (a b : VarMap) : VarMap := b ++ a

/-- ascending, case-sensitive comparison of character lists by
codepoint, which for UTF-8 text coincides with the byte-wise order Go
sort.Strings uses. -/
def charListLe : List Char → List Char → Bool
  | [], _ => true
  | _ :: _, [] => false
  | a :: as, b :: bs =>
    if a.toNat < b.toNat then true
    else if b.toNat < a.toNat then false
    else charListLe as bs

/-- the string order of Go sort.Strings. -/
def strLe (a b : String) : Prop := charListLe a.toList b.toList = true

instance strLeDec : DecidableRel strLe := fun a b => by
  unfold strLe
  exact inferInstance

/-- Go sort.Strings: since the order is total and antisymmetric the
sorted result is unique, so insertion sort is an exact model of its
output. -/
def sortStrings (l : List String) : List String :=
  List.insertionSort strLe l

/-- Go unicode.IsSpace restricted to the ASCII whitespace bytes. -/
def goIsSpace (c : Char) : Bool :=
  c == ' ' || c == '\t' || c == '\n' || c == '\x0b' || c == '\x0c' || c == '\r'

/-- accumulator pass of Go strings.Fields: split around runs of
whitespace, dropping empty pieces. -/
def fieldsAux : List Char → List Char → List String
  | [], acc => if acc.isEmpty then [] else [String.mk acc.reverse]
  | c :: cs, acc =>
    if goIsSpace c then
      if acc.isEmpty then fieldsAux cs []
      else String.mk acc.reverse :: fieldsAux cs []
    else fieldsAux cs (c :: acc)

/-- Go strings.Fields. -/
def goFields (s : String) : List String := fieldsAux s.toList []

/-- Modelled from the spec: the element-wise coercion of an arbitrary
sequence element to a string (fmt.Sprint in the source, which is not
under src/).  A string coerces to itself; the claims depend on nothing
else about the textual form of the remaining shapes. -/
def valueToString : Value → String
  | Value.s v => v
  | Value.b true => "true"
  | Value.b false => "false"
  | Value.i v => toString v
  | Value.time v => toString v
  | Value.list _ => "[...]"

/-- Modelled from the spec: FrontMatter.SortedStringArray is code of
this repository that is not under src/ (only its test is).  Per the spec
it normalizes the value at the key into a sorted sequence of strings:
a single string is split on runs of whitespace, a sequence is coerced
element-wise to strings, and an absent value or a value of any other
type yields the empty sequence, never an error.  Validated below against
the concrete vectors of the in-src test
frontmatter/frontmatter_test.go:20-29. -/
def sortedStringArray (fm : VarMap) (k : String) : List String :=
  match lookupVM fm k with
  | some (Value.s str) => sortStrings (goFields str)
  | some (Value.list vs) => sortStrings (vs.map valueToString)
  | _ => []

/-- shape test: is the value one of the two sequence-producing shapes
accepted by SortedStringArray. -/
def isStrOrListB : Value → Bool
  | Value.s _ => true
  | Value.list _ => true
  | _ => false

/-- Go filepath.ToSlash on a non-Windows platform: the identity. -/
def toSlash (s : String) : String := s

/-- strip trailing slashes, step 2 of Go path.Base. -/
def stripTrailingSlashes (cs : List Char) : List Char :=
  (cs.reverse.dropWhile (fun c => c = '/')).reverse

/-- the piece after the last slash, step 3 of Go path.Base. -/
def afterLastSlash (cs : List Char) : List Char :=
  (cs.reverse.takeWhile (fun c => c ≠ '/')).reverse

/-- Go path.Base. -/
def pathBase (s : String) : String :=
  if s.isEmpty then "." else
  let cs := stripTrailingSlashes s.toList
  let b := afterLastSlash cs
  if b.isEmpty then "/" else String.mk b

/-- scan of the reversed character list for Go path.Ext: walk backwards
until a dot (extension found) or a slash (no extension). -/
def pathExtAux : List Char → List Char → Option (List Char)
  | [], _ => none
  | c :: cs, acc =>
    if c = '/' then none
    else if c = '.' then some ('.' :: acc)
    else pathExtAux cs (c :: acc)

/-- Go path.Ext: the suffix of the final path element starting at its
final dot, or the empty string. -/
def pathExt (s : String) : String :=
  match pathExtAux s.toList.reverse [] with
  | none => ""
  | some l => String.mk l

/-- Modelled from the spec: helpers.PathWithoutExtension is code of this
repository that is not under src/; per the spec it is the name with its
final extension stripped. -/
def pathWithoutExtension (s : String) : String :=
  s.dropRight (pathExt s).length

/-- the two Page variants of page.go. -/
inductive Variant where
  | static : Variant
  | dynamic : Variant
deriving DecidableEq, Repr

/-- an opaque owning collection (only carried, never inspected here). -/
structure Collection where
  name : String
deriving DecidableEq, Repr

/-- pageFields (page.go:37-44) together with the variant tag, plus the
ghost counter permalinkInits recording how many times initPermalink was
invoked on this page (the source has no such field; it instruments the
claim that initialization happens exactly once). -/
structure PageM where
  variant : Variant
  relpath : String
  modTime : Nat
  frontMatter : VarMap
  collection : Option Collection
  siteSource : String
  permalink : Option String
  permalinkInits : Nat

/-- contents and modification time of one file on disk. -/
structure FileData where
  contents : List Nat
  modTime : Nat

/-- the site context consumed by ReadPage: the source root and the
files below it (absolute path to file data; none = no such file). -/
structure Site where
  source : String
  fs : String → Option FileData

/-- filepath.Join of the source root and a relative path. -/
def joinPath (a b : String) : String := a ++ "/" ++ b

/-- pageFields.TemplateObject (page.go:92-106): the structural keys of
the template page object. -/
def pageFieldsTemplateObject (p : PageM) : VarMap :=
  let relpath := "/" ++ toSlash p.relpath
  let base := pathBase relpath
  let ext := pathExt relpath
  [("path", Value.s relpath),
   ("modified_time", Value.time p.modTime),
   ("name", Value.s base),
   ("basename", Value.s (pathWithoutExtension base)),
   ("extname", Value.s ext)]

/-- StaticPage.TemplateObject exactly as written (page.go:133-135):

  func (page *StaticPage) TemplateObject() VariableMap {
      return MergeVariableMaps(page.frontMatter, page.TemplateObject())
  }

The inner call page.TemplateObject() resolves to this very method (the
declared method shadows the promoted pageFields one), so the function
recurses into itself unconditionally.  The embedding makes the recursion
depth explicit: with any finite amount of stack no value is ever
produced. -/
def staticTemplateObjectFuel : Nat → PageM → Option VarMap
  | 0, _ => none
  | n + 1, p =>
    match staticTemplateObjectFuel n p with
    | none => none
    | some inner => some (mergeVariableMaps p.frontMatter inner)

/-- the merge the surrounding code intends for a static page's template
object (metadata under the structural keys, structural keys winning):
MergeVariableMaps(page.frontMatter, page.pageFields.TemplateObject()). -/
def intendedStaticTemplateObject (p : PageM) : VarMap :=
  mergeVariableMaps p.frontMatter (pageFieldsTemplateObject p)

/-- the classification step of ReadPage (page.go:67-81): build the
shared fields with the defaults as front matter, then construct the
Dynamic variant when the magic matches (NewDynamicPage, modelled from
the spec: it parses the front-matter block - the parser is the parseFM
parameter - and merges the defaults with the parsed block, parsed values
winning) and the Static variant otherwise. -/
def classifyPage (parseFM : List Nat → Except GoErr VarMap) (site : Site)
    (coll : Option Collection) (relpath : String) (defaults : VarMap)
    (fd : FileData) : Except GoErr PageM :=
  let fields : PageM :=
    { variant := Variant.static, relpath := relpath, modTime := fd.modTime,
      frontMatter := defaults, collection := coll, siteSource := site.source,
      permalink := none, permalinkInits := 0 }
  if hasMagicB fd.contents then
    match parseFM fd.contents with
    | Except.error e => Except.error e
    | Except.ok fm =>
      Except.ok { fields with variant := Variant.dynamic,
                              frontMatter := mergeVariableMaps defaults fm }
  else Except.ok fields

/-- the permalink-initialization step of ReadPage (page.go:83-86).
initPermalink itself lives outside src/ and is abstracted into the
initPL parameter; one invocation is recorded in the ghost counter
whether or not it succeeds.  With Go named returns, a failing
initPermalink still hands the already-constructed page back to the
caller together with the error. -/
def applyInitPermalink (initPL : PageM → Except GoErr String) (p : PageM) :
    Option PageM × Option GoErr :=
  let invoked := { p with permalinkInits := p.permalinkInits + 1 }
  match initPL p with
  | Except.error e => (some invoked, some e)
  | Except.ok s => (some { invoked with permalink := some s }, none)

/-- ReadPage (page.go:56-88) with its named return values (p Page,
err error) modelled as the pair Option PageM times Option GoErr: sniff
the magic bytes (an open failure surfaces as a path error with no page),
stat the file (it exists, since the open succeeded), classify, then
initialize the permalink. -/
def readPage (parseFM : List Nat → Except GoErr VarMap)
    (initPL : PageM → Except GoErr String) (site : Site)
    (coll : Option Collection) (relpath : String) (defaults : VarMap) :
    Option PageM × Option GoErr :=
  let abspath := joinPath site.source relpath
  match site.fs abspath with
  | none => (none, some (GoErr.pathError "open" abspath (GoErr.errno ENOENT)))
  | some fd =>
    match classifyPage parseFM site coll relpath defaults fd with
    | Except.error e => (none, some e)
    | Except.ok p => applyInitPermalink initPL p

/-- what a successful os.Stat reports about a node (all the visitor
logic here consults is IsDir). -/
inductive Info where
  | file : Info
  | dir : Info
deriving DecidableEq, Repr

/-- one invocation of the walk visitor: the arguments it received. -/
structure Visit where
  path : String
  info : Option Info
  err : Option GoErr
deriving DecidableEq, Repr

/-- a filepath.WalkFunc; the Except Unit layer models a Go panic
escaping the visitor. -/
abbrev WalkFn : Type := String → Option Info → Option GoErr → Except Unit (Option GoErr)

mutual

/-- a directory tree as the walk observes it: every node carries the
outcome of os.Stat on it (none = stat succeeds), and a directory
additionally records whether ioutil.ReadDir fails on it and its named
children.  A root path that does not exist at all is the node
FTree.file (some notExist-error): ReadDir fails on it and stat reports
not found, exactly as for a vanished path. -/
inductive FTree where
  | file (statErr : Option GoErr) : FTree
  | dir (listErr : Bool) (statErr : Option GoErr) (children : FForest) : FTree

/-- the ordered children of a directory. -/
inductive FForest where
  | nil : FForest
  | cons (name : String) (t : FTree) (rest : FForest) : FForest

end

/-- whether the ReadDir entry for this node reports a directory. -/
def FTree.isDirB : FTree → Bool
  | FTree.file _ => false
  | FTree.dir _ _ _ => true

/-- the stat outcome recorded at the root of a tree. -/
def rootStatErr : FTree → Option GoErr
  | FTree.file se => se
  | FTree.dir _ se _ => se

/-- the FileInfo the final stat of a node hands to the visitor: nil
when stat failed. -/
def rootInfo : FTree → Option Info
  | FTree.file se => if se.isSome then none else some Info.file
  | FTree.dir _ se _ => if se.isSome then none else some Info.dir

mutual

/-- helpers.PostfixWalk (helpers/file.go:76-89) on one tree, returning
the list of visitor invocations made (ghost trace) and the overall
result.  ReadDir is attempted first; on failure the directory is
treated as having no children; each child that the listing reports as a
directory is walked recursively, aborting on the first visitor error or
panic; finally the node itself is stat-ed and the visitor is invoked on
it with the stat result. -/
def walkTree (f : WalkFn) (path : String) :
    FTree → List Visit × Except Unit (Option GoErr)
  | FTree.file se =>
    let info := if se.isSome then none else some Info.file
    ([⟨path, info, se⟩], f path info se)
  | FTree.dir le se cs =>
    let r := if le then ([], Except.ok none) else walkForest f path cs
    match r with
    | (tr, Except.ok none) =>
      let info := if se.isSome then none else some Info.dir
      (tr ++ [⟨path, info, se⟩], f path info se)
    | (tr, other) => (tr, other)

/-- the loop over a directory listing inside PostfixWalk: walk each
entry that is itself a directory, in order, stopping at the first
error. -/
def walkForest (f : WalkFn) (path : String) :
    FForest → List Visit × Except Unit (Option GoErr)
  | FForest.nil => ([], Except.ok none)
  | FForest.cons n t rest =>
    if t.isDirB then
      match walkTree f (path ++ "/" ++ n) t with
      | (tr, Except.ok none) =>
        match walkForest f path rest with
        | (tr2, r2) => (tr ++ tr2, r2)
      | (tr, other) => (tr, other)
    else walkForest f path rest

end

mutual

/-- expected postfix visit order, written from the sentences of the
claim: the visitor runs on each subdirectory's (directory) children
before the subdirectory itself and finally on the root, a directory
whose listing fails contributing no children. -/
def specPostOrderPaths (path : String) : FTree → List String
  | FTree.file _ => [path]
  | FTree.dir le _ cs =>
    (if le then [] else specForestPaths path cs) ++ [path]

/-- expected visit order of a directory listing. -/
def specForestPaths (path : String) : FForest → List String
  | FForest.nil => []
  | FForest.cons n t rest =>
    (if t.isDirB then specPostOrderPaths (path ++ "/" ++ n) t else []) ++
      specForestPaths path rest

end

/-- the walkFn closure of helpers.RemoveEmptyDirectories
(helpers/file.go:121-143).  rm gives the outcome of os.Remove at each
path.  A stat error that is not-exist is tolerated; any other stat
error is returned; on a directory the removal outcome nil, not-exist
and not-empty are all treated as success; any other removal error is
returned.  The IsNotEmpty call can panic (Except.error). -/
def pruneVisit (rm : String → Option GoErr) (name : String)
    (info : Option Info) (err : Option GoErr) : Except Unit (Option GoErr) :=
  match err with
  | some e => if isNotExistB e then Except.ok none else Except.ok (some e)
  | none =>
    match info with
    | some Info.dir =>
      match rm name with
      | none => Except.ok none
      | some e =>
        if isNotExistB e then Except.ok none
        else
          match isNotEmpty (some e) with
          | Except.error u => Except.error u
          | Except.ok true => Except.ok none
          | Except.ok false => Except.ok (some e)
    | _ => Except.ok none

/-- helpers.RemoveEmptyDirectories (helpers/file.go:120-145): the
postfix walk driven by pruneVisit. -/
def removeEmptyDirectories (rm : String → Option GoErr) (root : String)
    (t : FTree) : Except Unit (Option GoErr) :=
  (walkTree (pruneVisit rm) root t).2

/-- a stat outcome the pruning pass tolerates: success or not-exist. -/
def statOkB : Option GoErr → Bool
  | none => true
  | some e => isNotExistB e

/-- an os.Remove outcome the pruning pass tolerates: success, not-exist,
or the not-empty errno wrapped in a path error. -/
def rmOkB : Option GoErr → Bool
  | none => true
  | some (GoErr.pathError _ _ (GoErr.errno n)) => n == ENOENT || n == ENOTEMPTY
  | some e => isNotExistB e

mutual

/-- every stat outcome in the tree is tolerated by the pruning pass. -/
def treeStatOkB : FTree → Bool
  | FTree.file se => statOkB se
  | FTree.dir _ se cs => statOkB se && forestStatOkB cs

/-- every stat outcome in the forest is tolerated by the pruning pass. -/
def forestStatOkB : FForest → Bool
  | FForest.nil => true
  | FForest.cons _ t rest => treeStatOkB t && forestStatOkB rest

end

/-- a one-byte file fixture (no front-matter magic). -/
def fdPlain : FileData := { contents := [97], modTime := 0 }

/-- a one-file site fixture rooted at "s", holding fdPlain at a.md. -/
def site1 : Site :=
  { source := "s", fs := fun p => if p = "s/a.md" then some fdPlain else none }

/-! Theorems.  Each claim of the specification gets one main theorem,
with a witness instance when the theorem carries hypotheses. -/

/-- claim C4: when file creation succeeds, VisitCreatedFile closes the
created stream exactly once on every execution path; a write-routine
error is returned as-is (the deferred close error is discarded); on
write success the separate explicit close is performed and its error is
returned rather than swallowed. -/
theorem c4_visit_created_file (name : String) (wErr closeErr : Option GoErr) :
    (visitCreatedFile name none wErr closeErr).closes = 1
    ∧ (∀ e, wErr = some e → (visitCreatedFile name none wErr closeErr).ret = some e)
    ∧ (wErr = none → (visitCreatedFile name none wErr closeErr).ret = closeErr) := by
  cases wErr <;> simp [visitCreatedFile]

/-- witness for C4: a failing write routine, with a close error pending;
the write error is returned and exactly one close happens. -/
theorem c4_witness :
    ((some (GoErr.simple "boom") : Option GoErr) = some (GoErr.simple "boom"))
    ∧ (visitCreatedFile "f" none (some (GoErr.simple "boom"))
        (some (GoErr.simple "close"))).ret = some (GoErr.simple "boom")
    ∧ (visitCreatedFile "f" none (some (GoErr.simple "boom"))
        (some (GoErr.simple "close"))).closes = 1 :=
  ⟨rfl, (c4_visit_created_file "f" _ _).2.1 _ rfl, (c4_visit_created_file "f" _ _).1⟩

/-- claim C7: PathError wrapping is idempotent: a path-error argument is
returned unchanged, and any other non-nil error is wrapped into a path
error carrying an operation (the literal "read"), the given path, and
the argument as the underlying cause. -/
theorem c7_path_error_idempotent (op name : String) (e : GoErr) :
    (isPathErrB e = true → pathErrorFn (some e) op name = some e)
    ∧ (isPathErrB e = false →
        pathErrorFn (some e) op name = some (GoErr.pathError "read" name e)) := by
  constructor <;> intro h <;> simp [pathErrorFn, h]

/-- witness for C7: an already-wrapped path error comes back unchanged,
and a plain error gets wrapped with the path and cause. -/
theorem c7_witness :
    (isPathErrB (GoErr.pathError "remove" "p" (GoErr.simple "x")) = true
      ∧ pathErrorFn (some (GoErr.pathError "remove" "p" (GoErr.simple "x"))) "op" "n" =
          some (GoErr.pathError "remove" "p" (GoErr.simple "x")))
    ∧ (isPathErrB (GoErr.simple "y") = false
      ∧ pathErrorFn (some (GoErr.simple "y")) "op" "n" =
          some (GoErr.pathError "read" "n" (GoErr.simple "y"))) :=
  ⟨⟨rfl, (c7_path_error_idempotent "op" "n" _).1 rfl⟩,
   ⟨rfl, (c7_path_error_idempotent "op" "n" _).2 rfl⟩⟩

/-- claim C10 (amended): IsNotEmpty returns false without panicking for
nil and for non-path errors, and for a path error wrapping an errno it
returns true exactly when the errno is the platform's directory-not-empty
value; but it is NOT total: on a path error whose underlying cause is
not a raw errno the unchecked type assertion panics (modelled as
Except.error). -/
theorem c10_is_not_empty_partial :
    isNotEmpty none = Except.ok false
    ∧ (∀ e : GoErr, isPathErrB e = false → isNotEmpty (some e) = Except.ok false)
    ∧ (∀ op p n, isNotEmpty (some (GoErr.pathError op p (GoErr.errno n))) =
        Except.ok (n == ENOTEMPTY))
    ∧ (∀ op p c, isErrnoB c = false →
        isNotEmpty (some (GoErr.pathError op p c)) = Except.error ()) := by
  refine ⟨rfl, ?_, ?_, ?_⟩
  · intro e h
    cases e <;> simp_all [isPathErrB, isNotEmpty]
  · intro op p n
    rfl
  · intro op p c h
    cases c <;> simp_all [isErrnoB, isNotEmpty]

/-- counterexample to C10 as stated: on the concrete input
os.PathError{Op:"remove", Path:"d", Err:errors.New("boom")} the function
does not terminate normally with a boolean; the unchecked assertion
err.Err.(syscall.Errno) panics, modelled as Except.error (). -/
theorem c10_counterexample :
    isNotEmpty (some (GoErr.pathError "remove" "d" (GoErr.simple "boom"))) =
      Except.error () := rfl

/-- witness for C10: a non-path error yields ok false, and a path error
wrapping the not-empty errno yields ok true. -/
theorem c10_witness :
    (isPathErrB (GoErr.simple "x") = false
      ∧ isNotEmpty (some (GoErr.simple "x")) = Except.ok false)
    ∧ isNotEmpty (some (GoErr.pathError "rm" "d" (GoErr.errno 39))) =
        Except.ok (39 == ENOTEMPTY) :=
  ⟨⟨rfl, c10_is_not_empty_partial.2.1 _ rfl⟩,
   c10_is_not_empty_partial.2.2.1 "rm" "d" 39⟩

/-- the buffer a short read leaves behind keeps its length under the
fourth-byte normalization. -/
theorem normalizeFourth_length (bs : List Nat) :
    (normalizeFourth bs).length = bs.length := by
  unfold normalizeFourth
  split <;> simp

/-- the magic data is the normalized, zero-padded 4-byte read. -/
theorem readFileMagic_data (c : List Nat) :
    (readFileMagic c).data =
      normalizeFourth (c.take 4 ++ List.replicate (4 - min 4 c.length) 0) := rfl

/-- claim C3 (amended): for every file shorter than 4 bytes,
ReadFileMagic succeeds (an end-of-input condition within the first 4
bytes is not reported as an error), but the returned buffer is always
exactly 4 bytes: the bytes actually read followed by zero padding, then
the fourth-byte normalization; the count of bytes read is discarded by
the source, not preserved in the result. -/
theorem c3_short_file_magic (c : List Nat) (h : c.length < 4) :
    (readFileMagic c).err = none
    ∧ (readFileMagic c).data.length = 4
    ∧ (readFileMagic c).data =
        normalizeFourth (c.take 4 ++ List.replicate (4 - c.length) 0) := by
  refine ⟨?_, ?_, ?_⟩
  · by_cases hz : c.length = 0 <;>
      simp [readFileMagic, fileRead, hz]
  · rw [readFileMagic_data, normalizeFourth_length]
    simp [List.length_take]
  · rw [readFileMagic_data, Nat.min_eq_right (Nat.le_of_lt h)]

/-- counterexample to C3 as stated: a 1-byte file and a 4-byte file
produce identical results, so the number of bytes actually read (1
versus 4) cannot be recovered from, and is not preserved in, the
returned result. -/
theorem c3_counterexample :
    readFileMagic [97] = readFileMagic [97, 0, 0, 0]
    ∧ ([97] : List Nat).length ≠ ([97, 0, 0, 0] : List Nat).length := by
  exact ⟨rfl, by decide⟩

/-- witness for C3: the empty file is shorter than 4 bytes; the read
succeeds and yields the zero buffer. -/
theorem c3_witness :
    ([] : List Nat).length < 4
    ∧ (readFileMagic []).err = none
    ∧ (readFileMagic []).data.length = 4
    ∧ (readFileMagic []).data =
        normalizeFourth (([] : List Nat).take 4 ++ List.replicate (4 - ([] : List Nat).length) 0) :=
  ⟨by decide, c3_short_file_magic [] (by decide)⟩

/-- claim C2: front-matter detection returns true iff the file's first
four bytes, after rewriting a carriage return in the fourth position to
a line feed, equal the literal "---\n"; the result depends only on the
first four bytes (so is independent of content and length beyond them),
and a file shorter than four bytes is never detected. -/
theorem c2_front_matter_detection :
    (∀ c : List Nat, 4 ≤ c.length →
      (hasMagicB c = true ↔ normalizeFourth (c.take 4) = magicBytes))
    ∧ (∀ c₁ c₂ : List Nat, c₁.take 4 = c₂.take 4 → hasMagicB c₁ = hasMagicB c₂)
    ∧ (∀ c : List Nat, c.length < 4 → hasMagicB c = false) := by
  refine ⟨?_, ?_, ?_⟩
  · intro c hc
    have hmin : min 4 c.length = 4 := Nat.min_eq_left hc
    unfold hasMagicB
    rw [readFileMagic_data, hmin]
    simp [beq_iff_eq]
  · intro c₁ c₂ h
    have hlen : min 4 c₁.length = min 4 c₂.length := by
      rw [← List.length_take, ← List.length_take, h]
    unfold hasMagicB
    rw [readFileMagic_data, readFileMagic_data, h, hlen]
  · intro c hc
    have hz : ∃ pad, (readFileMagic c).data = c ++ pad ++ [0] := by
      rcases c with _ | ⟨a, _ | ⟨b, _ | ⟨d, _ | ⟨e, rest⟩⟩⟩⟩
      · exact ⟨[0, 0, 0], rfl⟩
      · exact ⟨[0, 0], rfl⟩
      · exact ⟨[0], rfl⟩
      · exact ⟨[], rfl⟩
      · simp only [List.length_cons] at hc
        omega
    rcases hz with ⟨pad, hpad⟩
    unfold hasMagicB
    rw [hpad]
    refine beq_eq_false_iff_ne.mpr ?_
    intro hEq
    have : ((c ++ pad ++ [0] : List Nat)).getLast? = (magicBytes : List Nat).getLast? := by
      rw [hEq]
    simp [magicBytes] at this

/-- witness for C2: a file beginning "---\r" followed by further content
is detected (CRLF normalization of the fourth byte), and detection
coincides with the normalized first four bytes equalling the marker. -/
theorem c2_witness :
    4 ≤ ([45, 45, 45, 13, 99] : List Nat).length
    ∧ (hasMagicB [45, 45, 45, 13, 99] = true ↔
        normalizeFourth (([45, 45, 45, 13, 99] : List Nat).take 4) = magicBytes) :=
  ⟨by decide, c2_front_matter_detection.1 _ (by decide)⟩

/-- the byte-wise order is total. -/
theorem charListLe_total : ∀ as bs : List Char,
    charListLe as bs = true ∨ charListLe bs as = true
  | [], _ => Or.inl rfl
  | _ :: _, [] => Or.inr rfl
  | a :: as, b :: bs => by
    by_cases h1 : a.toNat < b.toNat
    · left
      simp [charListLe, h1]
    · by_cases h2 : b.toNat < a.toNat
      · right
        simp [charListLe, h2]
      · rcases charListLe_total as bs with h | h
        · left
          simp [charListLe, h1, h2, h]
        · right
          simp [charListLe, h1, h2, h]

/-- the byte-wise order is transitive. -/
theorem charListLe_trans : ∀ as bs cs : List Char,
    charListLe as bs = true → charListLe bs cs = true → charListLe as cs = true
  | [], _, _ => fun _ _ => rfl
  | _ :: _, [], _ => by
    intro h _
    simp [charListLe] at h
  | _ :: _, _ :: _, [] => by
    intro _ h
    simp [charListLe] at h
  | a :: as, b :: bs, c :: cs => by
    intro h1 h2
    by_cases hab : a.toNat < b.toNat <;> by_cases hba : b.toNat < a.toNat <;>
      by_cases hbc : b.toNat < c.toNat <;> by_cases hcb : c.toNat < b.toNat <;>
      simp [charListLe, hab, hba, hbc, hcb] at h1 h2 ⊢ <;>
      first
        | omega
        | (constructor <;> omega)
        | (refine Or.inr ⟨by omega, ?_⟩
           exact charListLe_trans as bs cs h1 h2)

/-- sortStrings only produces ascending lists. -/
theorem sortStrings_sorted (l : List String) :
    List.Sorted strLe (sortStrings l) := by
  haveI : IsTotal String strLe :=
    ⟨fun a b => charListLe_total a.toList b.toList⟩
  haveI : IsTrans String strLe :=
    ⟨fun a b c hab hbc => charListLe_trans a.toList b.toList c.toList hab hbc⟩
  exact List.sorted_insertionSort strLe l

/-- feeding an already-sorted list of strings back through
SortedStringArray as a sequence value returns it unchanged. -/
theorem sortedStringArray_of_sorted_list (k : String) (out : List String)
    (h : List.Sorted strLe out) :
    sortedStringArray [(k, Value.list (out.map Value.s))] k = out := by
  unfold sortedStringArray
  have hlk : lookupVM [(k, Value.list (out.map Value.s))] k =
      some (Value.list (out.map Value.s)) := by
    simp [lookupVM, List.lookup]
  rw [hlk]
  show sortStrings ((out.map Value.s).map valueToString) = out
  have hmap : ∀ l : List String, (l.map Value.s).map valueToString = l := by
    intro l
    induction l with
    | nil => rfl
    | cons x xs ih =>
      rw [List.map_cons, List.map_cons, ih]
      rfl
  rw [hmap]
  exact List.Sorted.insertionSort_eq h

/-- claim C8: SortedStringArray returns an ascending (case-sensitive)
sequence: a single string is split on runs of whitespace, a sequence is
coerced element-wise to strings, and an absent value or a value of any
other shape yields the empty sequence, never an error (the function is
total by construction); applying it to a value equal to its own output
returns the same sequence. -/
theorem c8_sorted_string_array (fm : VarMap) (k : String) :
    List.Sorted strLe (sortedStringArray fm k)
    ∧ (∀ str, lookupVM fm k = some (Value.s str) →
        sortedStringArray fm k = sortStrings (goFields str))
    ∧ (∀ vs, lookupVM fm k = some (Value.list vs) →
        sortedStringArray fm k = sortStrings (vs.map valueToString))
    ∧ (lookupVM fm k = none → sortedStringArray fm k = [])
    ∧ (∀ v, lookupVM fm k = some v → isStrOrListB v = false →
        sortedStringArray fm k = [])
    ∧ sortedStringArray [(k, Value.list ((sortedStringArray fm k).map Value.s))] k
        = sortedStringArray fm k := by
  have hsorted : List.Sorted strLe (sortedStringArray fm k) := by
    unfold sortedStringArray
    cases hv : lookupVM fm k with
    | none => exact List.sorted_nil
    | some v =>
      cases v with
      | s str => exact sortStrings_sorted _
      | list vs => exact sortStrings_sorted _
      | b x => exact List.sorted_nil
      | i x => exact List.sorted_nil
      | time x => exact List.sorted_nil
  refine ⟨hsorted, ?_, ?_, ?_, ?_, ?_⟩
  · intro str h
    unfold sortedStringArray
    rw [h]
  · intro vs h
    unfold sortedStringArray
    rw [h]
  · intro h
    unfold sortedStringArray
    rw [h]
  · intro v hv hshape
    unfold sortedStringArray
    rw [hv]
    cases v with
    | s str => simp [isStrOrListB] at hshape
    | list vs => simp [isStrOrListB] at hshape
    | b x => rfl
    | i x => rfl
    | time x => rfl
  · exact sortedStringArray_of_sorted_list k _ hsorted

/-- the spec-modelled SortedStringArray reproduces the concrete vectors
of the in-src test frontmatter/frontmatter_test.go:25-28. -/
theorem sortedStringArray_matches_test_vectors :
    sortedStringArray [("categories", Value.s "b a")] "categories" = ["a", "b"]
    ∧ sortedStringArray [("categories", Value.list [Value.s "b", Value.s "a"])]
        "categories" = ["a", "b"]
    ∧ sortedStringArray [("categories", Value.i 3)] "categories" = [] := by
  refine ⟨?_, ?_, rfl⟩ <;> rfl

/-- witness for C8: the whitespace-splitting shape at a concrete map,
and the empty result on a numeric value. -/
theorem c8_witness :
    (lookupVM [("categories", Value.s "b a")] "categories" = some (Value.s "b a")
      ∧ sortedStringArray [("categories", Value.s "b a")] "categories" =
          sortStrings (goFields "b a"))
    ∧ (lookupVM [("categories", Value.i 3)] "categories" = some (Value.i 3)
      ∧ isStrOrListB (Value.i 3) = false
      ∧ sortedStringArray [("categories", Value.i 3)] "categories" = []) :=
  ⟨⟨rfl, (c8_sorted_string_array [("categories", Value.s "b a")] "categories").2.1 _ rfl⟩,
   ⟨rfl, rfl,
    (c8_sorted_string_array [("categories", Value.i 3)] "categories").2.2.2.2.1 _ rfl rfl⟩⟩

/-- claim C9 (code bug): StaticPage.TemplateObject as written calls
page.TemplateObject() - which resolves to the declared method itself,
not the promoted pageFields method - so evaluation recurses
unconditionally: for every static page and every finite recursion depth
no value is produced (a stack overflow in Go), and the merge of the
structural keys with the page metadata that the claim describes is
never reached. -/
theorem c9_static_template_object_diverges (n : Nat) (p : PageM) :
    staticTemplateObjectFuel n p = none := by
  induction n with
  | zero => rfl
  | succ n ih => simp [staticTemplateObjectFuel, ih]

/-- looking a key up in a merge consults the second map first, so
second-map bindings win conflicts. -/
theorem lookupVM_merge (a b : VarMap) (k : String) :
    lookupVM (mergeVariableMaps a b) k = (lookupVM b k).or (lookupVM a k) := by
  unfold mergeVariableMaps lookupVM
  induction b with
  | nil => simp [List.lookup]
  | cons x xs ih =>
    rcases x with ⟨k2, v⟩
    simp only [List.cons_append, List.lookup]
    cases hk : (k == k2) <;> simp [hk, ih]

/-- every page the classification step hands over has an untouched
permalink-initialization counter. -/
theorem classifyPage_inits (parseFM : List Nat → Except GoErr VarMap)
    (site : Site) (coll : Option Collection) (relpath : String)
    (defaults : VarMap) (fd : FileData) (p : PageM)
    (h : classifyPage parseFM site coll relpath defaults fd = Except.ok p) :
    p.permalinkInits = 0 := by
  unfold classifyPage at h
  by_cases hm : hasMagicB fd.contents
  · rw [if_pos hm] at h
    cases hp : parseFM fd.contents with
    | error e =>
      rw [hp] at h
      cases h
    | ok fm =>
      rw [hp] at h
      cases h
      rfl
  · rw [if_neg hm] at h
    cases h
    rfl

/-- claim C1 (amended): ReadPage sniffs the file's magic; an open
failure during sniffing surfaces as an error with no page; when the
magic equals "---\n" the Dynamic variant carries the parsed block
merged over the defaults (parsed values winning conflicts), a parse
failure surfacing with no page; otherwise the Static variant carries
exactly the defaults; permalink initialization is invoked exactly once,
after variant construction; its error is surfaced to the caller, but -
through the Go named return values - together with the
already-constructed page rather than with no page. -/
theorem c1_read_page (parseFM : List Nat → Except GoErr VarMap)
    (initPL : PageM → Except GoErr String) (site : Site)
    (coll : Option Collection) (relpath : String) (defaults : VarMap) :
    (site.fs (joinPath site.source relpath) = none →
      readPage parseFM initPL site coll relpath defaults =
        (none, some (GoErr.pathError "open" (joinPath site.source relpath)
          (GoErr.errno ENOENT))))
    ∧ (∀ fd e, site.fs (joinPath site.source relpath) = some fd →
        hasMagicB fd.contents = true → parseFM fd.contents = Except.error e →
        readPage parseFM initPL site coll relpath defaults = (none, some e))
    ∧ (∀ fd fm, site.fs (joinPath site.source relpath) = some fd →
        hasMagicB fd.contents = true → parseFM fd.contents = Except.ok fm →
        ∃ p, classifyPage parseFM site coll relpath defaults fd = Except.ok p
          ∧ p.variant = Variant.dynamic
          ∧ (∀ k, lookupVM p.frontMatter k =
              (lookupVM fm k).or (lookupVM defaults k))
          ∧ p.permalinkInits = 0
          ∧ readPage parseFM initPL site coll relpath defaults =
              applyInitPermalink initPL p)
    ∧ (∀ fd, site.fs (joinPath site.source relpath) = some fd →
        hasMagicB fd.contents = false →
        ∃ p, classifyPage parseFM site coll relpath defaults fd = Except.ok p
          ∧ p.variant = Variant.static
          ∧ p.frontMatter = defaults
          ∧ p.permalinkInits = 0
          ∧ readPage parseFM initPL site coll relpath defaults =
              applyInitPermalink initPL p)
    ∧ (∀ p e, initPL p = Except.error e →
        (applyInitPermalink initPL p).2 = some e
        ∧ ∃ q, (applyInitPermalink initPL p).1 = some q
            ∧ q.permalinkInits = p.permalinkInits + 1)
    ∧ (∀ p s, initPL p = Except.ok s →
        applyInitPermalink initPL p =
          (some { p with permalink := some s,
                         permalinkInits := p.permalinkInits + 1 }, none))
    ∧ (∀ q, (readPage parseFM initPL site coll relpath defaults).1 = some q →
        q.permalinkInits = 1) := by
  refine ⟨?_, ?_, ?_, ?_, ?_, ?_, ?_⟩
  · intro h
    simp [readPage, h]
  · intro fd e hfs hmag hparse
    simp [readPage, hfs, classifyPage, hmag, hparse]
  · intro fd fm hfs hmag hparse
    refine ⟨{ variant := Variant.dynamic, relpath := relpath,
              modTime := fd.modTime,
              frontMatter := mergeVariableMaps defaults fm,
              collection := coll, siteSource := site.source,
              permalink := none, permalinkInits := 0 },
            ?_, rfl, ?_, rfl, ?_⟩
    · simp [classifyPage, hmag, hparse]
    · intro k2
      exact lookupVM_merge defaults fm k2
    · simp [readPage, hfs, classifyPage, hmag, hparse]
  · intro fd hfs hmag
    refine ⟨{ variant := Variant.static, relpath := relpath,
              modTime := fd.modTime, frontMatter := defaults,
              collection := coll, siteSource := site.source,
              permalink := none, permalinkInits := 0 },
            ?_, rfl, rfl, rfl, ?_⟩
    · simp [classifyPage, hmag]
    · simp [readPage, hfs, classifyPage, hmag]
  · intro p e h
    refine ⟨?_, ⟨{ p with permalinkInits := p.permalinkInits + 1 }, ?_, rfl⟩⟩
    · simp [applyInitPermalink, h]
    · simp [applyInitPermalink, h]
  · intro p s h
    simp [applyInitPermalink, h]
  · intro q hq
    simp only [readPage] at hq
    split at hq
    · simp at hq
    · rename_i fd hfs
      split at hq
      · simp at hq
      · rename_i p hcl
        have h0 := classifyPage_inits parseFM site coll relpath defaults fd p hcl
        simp only [applyInitPermalink] at hq
        split at hq
        · rename_i e hinit
          simp at hq
          rw [← hq]
          simp [h0]
        · rename_i s hinit
          simp at hq
          rw [← hq]
          simp [h0]

/-- counterexample to C1 as stated: with a plain (non-magic) file and a
failing permalink initializer, ReadPage returns an error AND a page
(the Go named return p was already assigned when the early return
fired), contradicting "an error and no page". -/
theorem c1_counterexample :
    ((readPage (fun _ => Except.ok [])
        (fun _ => Except.error (GoErr.simple "boom"))
        site1 none "a.md" []).1).isSome = true
    ∧ (readPage (fun _ => Except.ok [])
        (fun _ => Except.error (GoErr.simple "boom"))
        site1 none "a.md" []).2 = some (GoErr.simple "boom") :=
  ⟨rfl, rfl⟩

/-- witness for C1: the static branch at a concrete site (a one-byte
file without the magic), and the missing-file branch at another
relative path. -/
theorem c1_witness :
    (site1.fs (joinPath "s" "a.md") = some fdPlain
      ∧ hasMagicB fdPlain.contents = false
      ∧ ∃ p, classifyPage (fun _ => Except.ok []) site1 none "a.md" [] fdPlain =
            Except.ok p
          ∧ p.variant = Variant.static
          ∧ p.frontMatter = []
          ∧ p.permalinkInits = 0
          ∧ readPage (fun _ => Except.ok []) (fun _ => Except.ok "/a/")
              site1 none "a.md" [] =
              applyInitPermalink (fun _ => Except.ok "/a/") p)
    ∧ (site1.fs (joinPath "s" "missing.md") = none
      ∧ readPage (fun _ => Except.ok []) (fun _ => Except.ok "/a/")
          site1 none "missing.md" [] =
          (none, some (GoErr.pathError "open" (joinPath "s" "missing.md")
            (GoErr.errno ENOENT)))) :=
  ⟨⟨rfl, rfl,
    (c1_read_page (fun _ => Except.ok []) (fun _ => Except.ok "/a/")
      site1 none "a.md" []).2.2.2.1 fdPlain rfl rfl⟩,
   ⟨rfl,
    (c1_read_page (fun _ => Except.ok []) (fun _ => Except.ok "/a/")
      site1 none "missing.md" []).1 rfl⟩⟩

mutual

/-- with a visitor that always succeeds, the walk of a tree succeeds and
its visit sequence is exactly the claimed postfix order over the
directory nodes. -/
theorem walkTree_pure (f : WalkFn) (hf : ∀ p i e, f p i e = Except.ok none)
    (path : String) : ∀ t : FTree,
    (walkTree f path t).2 = Except.ok none
    ∧ (walkTree f path t).1.map Visit.path = specPostOrderPaths path t
  | FTree.file se => by
    constructor
    · simp [walkTree, hf]
    · simp [walkTree, specPostOrderPaths]
  | FTree.dir le se cs => by
    cases le with
    | true =>
      constructor
      · simp [walkTree, hf]
      · simp [walkTree, specPostOrderPaths]
    | false =>
      have h := walkForest_pure f hf path cs
      rcases hw : walkForest f path cs with ⟨tr, res⟩
      rw [hw] at h
      have hres : res = Except.ok none := h.1
      subst hres
      have h2 : tr.map Visit.path = specForestPaths path cs := h.2
      constructor
      · simp [walkTree, hw, hf]
      · simp [walkTree, specPostOrderPaths, hw, h2]

/-- with a visitor that always succeeds, walking a directory listing
succeeds and visits exactly the claimed postfix order of its directory
entries. -/
theorem walkForest_pure (f : WalkFn) (hf : ∀ p i e, f p i e = Except.ok none)
    (path : String) : ∀ cs : FForest,
    (walkForest f path cs).2 = Except.ok none
    ∧ (walkForest f path cs).1.map Visit.path = specForestPaths path cs
  | FForest.nil => by
    constructor
    · rfl
    · rfl
  | FForest.cons n t rest => by
    have hr := walkForest_pure f hf path rest
    cases hdir : t.isDirB with
    | false =>
      constructor
      · simp [walkForest, hdir, hr.1]
      · simp [walkForest, specForestPaths, hdir, hr.2]
    | true =>
      have ht := walkTree_pure f hf (path ++ "/" ++ n) t
      rcases hw : walkTree f (path ++ "/" ++ n) t with ⟨tr, res⟩
      rw [hw] at ht
      have hres : res = Except.ok none := ht.1
      subst hres
      have ht2 : tr.map Visit.path = specPostOrderPaths (path ++ "/" ++ n) t := ht.2
      rcases hw2 : walkForest f path rest with ⟨tr2, res2⟩
      rw [hw2] at hr
      have hres2 : res2 = Except.ok none := hr.1
      subst hres2
      have hr2 : tr2.map Visit.path = specForestPaths path rest := hr.2
      constructor
      · simp [walkForest, hdir, hw, hw2]
      · simp [walkForest, specForestPaths, hdir, hw, hw2, ht2, hr2]

end

/-- claim C5 (amended): with a visitor that always returns nil,
PostfixWalk visits exactly the directory entries of the tree - plain
file entries are never handed to the visitor - invoking the visitor on
each subdirectory's (directory) children before the subdirectory and
finally on the root; an error while listing a directory is treated as
that directory having no children rather than propagated (such a
directory contributes just its own visit); and the walk always ends
with a stat of the root whose result, including any not-found error, is
handed to the visitor. -/
theorem c5_postfix_walk (f : WalkFn) (r : String) (t : FTree)
    (hf : ∀ p i e, f p i e = Except.ok none) :
    (walkTree f r t).1.map Visit.path = specPostOrderPaths r t
    ∧ (walkTree f r t).2 = Except.ok none
    ∧ (walkTree f r t).1.getLast? = some ⟨r, rootInfo t, rootStatErr t⟩ := by
  refine ⟨(walkTree_pure f hf r t).2, (walkTree_pure f hf r t).1, ?_⟩
  cases t with
  | file se => simp [walkTree, rootInfo, rootStatErr]
  | dir le se cs =>
    cases le with
    | true => simp [walkTree, rootInfo, rootStatErr]
    | false =>
      have h := walkForest_pure f hf r cs
      rcases hw : walkForest f r cs with ⟨tr, res⟩
      rw [hw] at h
      have hres : res = Except.ok none := h.1
      subst hres
      simp [walkTree, hw, rootInfo, rootStatErr, List.getLast?_concat]

/-- counterexample to C5 as stated: in a tree whose root directory
holds one plain file entry, the visitor is invoked only on the root -
the file entry "r/a" is an entry of the tree that is never visited, so
PostfixWalk does not visit every entry. -/
theorem c5_counterexample :
    ((walkTree (fun _ _ _ => Except.ok none) "r"
        (FTree.dir false none (FForest.cons "a" (FTree.file none) FForest.nil))).1.map
      Visit.path) = ["r"]
    ∧ ¬ ("r/a" ∈ ((walkTree (fun _ _ _ => Except.ok none) "r"
        (FTree.dir false none (FForest.cons "a" (FTree.file none) FForest.nil))).1.map
      Visit.path)) := by
  refine ⟨rfl, ?_⟩
  intro hmem
  rw [show ((walkTree (fun _ _ _ => Except.ok none) "r"
      (FTree.dir false none (FForest.cons "a" (FTree.file none) FForest.nil))).1.map
    Visit.path) = ["r"] from rfl] at hmem
  simp at hmem

/-- witness for C5: a two-level tree with a file entry, a subdirectory,
and a subdirectory with a listing error; the walk visits the
directories bottom-up, the root last with its stat result. -/
theorem c5_witness :
    (∀ p i e, (fun (_ : String) (_ : Option Info) (_ : Option GoErr) =>
        (Except.ok none : Except Unit (Option GoErr))) p i e = Except.ok none)
    ∧ ((walkTree (fun _ _ _ => Except.ok none) "r"
        (FTree.dir false none
          (FForest.cons "a" (FTree.file none)
            (FForest.cons "d" (FTree.dir false none FForest.nil)
              (FForest.cons "u" (FTree.dir true none FForest.nil)
                FForest.nil))))).1.map Visit.path =
      specPostOrderPaths "r"
        (FTree.dir false none
          (FForest.cons "a" (FTree.file none)
            (FForest.cons "d" (FTree.dir false none FForest.nil)
              (FForest.cons "u" (FTree.dir true none FForest.nil)
                FForest.nil)))))
    ∧ ((walkTree (fun _ _ _ => Except.ok none) "r"
        (FTree.dir false none
          (FForest.cons "a" (FTree.file none)
            (FForest.cons "d" (FTree.dir false none FForest.nil)
              (FForest.cons "u" (FTree.dir true none FForest.nil)
                FForest.nil))))).1.getLast? =
      some ⟨"r", rootInfo (FTree.dir false none
          (FForest.cons "a" (FTree.file none)
            (FForest.cons "d" (FTree.dir false none FForest.nil)
              (FForest.cons "u" (FTree.dir true none FForest.nil)
                FForest.nil)))),
        rootStatErr (FTree.dir false none
          (FForest.cons "a" (FTree.file none)
            (FForest.cons "d" (FTree.dir false none FForest.nil)
              (FForest.cons "u" (FTree.dir true none FForest.nil)
                FForest.nil))))⟩) :=
  ⟨fun _ _ _ => rfl,
   (c5_postfix_walk (fun _ _ _ => Except.ok none) "r" _
      (fun _ _ _ => rfl)).1,
   (c5_postfix_walk (fun _ _ _ => Except.ok none) "r" _
      (fun _ _ _ => rfl)).2.2⟩

/-- the pruning visitor returns nil on every tolerated combination: a
tolerated stat outcome together with a tolerated removal outcome. -/
theorem pruneVisit_ok (rm : String → Option GoErr) (p : String)
    (i : Option Info) (se : Option GoErr)
    (hrm : rmOkB (rm p) = true) (hse : statOkB se = true) :
    pruneVisit rm p i se = Except.ok none := by
  cases se with
  | some e =>
    have he : isNotExistB e = true := hse
    simp [pruneVisit, he]
  | none =>
    cases i with
    | none => rfl
    | some info =>
      cases info with
      | file => rfl
      | dir =>
        cases hrmp : rm p with
        | none => simp [pruneVisit, hrmp]
        | some e =>
          rw [hrmp] at hrm
          cases e with
          | eof => simp [rmOkB, isNotExistB] at hrm
          | simple m => simp [rmOkB, isNotExistB] at hrm
          | errno n =>
            simp [rmOkB, isNotExistB, ENOENT] at hrm
            simp [pruneVisit, hrmp, isNotExistB, ENOENT, hrm]
          | pathError op pp c =>
            cases c with
            | errno n =>
              simp [rmOkB, ENOENT, ENOTEMPTY] at hrm
              rcases hrm with h | h
              · simp [pruneVisit, hrmp, isNotExistB, ENOENT, h]
              · subst h
                simp [pruneVisit, hrmp, isNotExistB, isNotEmpty, ENOENT, ENOTEMPTY]
            | eof => simp [rmOkB, isNotExistB] at hrm
            | simple m => simp [rmOkB, isNotExistB] at hrm
            | pathError a b c2 => simp [rmOkB, isNotExistB] at hrm

/-- an error the pruning visitor lets escape is never a not-exist
error, and it is either the stat error it was handed or a removal
outcome the not-empty classification rejected. -/
theorem pruneVisit_err (rm : String → Option GoErr) (p : String)
    (i : Option Info) (er : Option GoErr) (e : GoErr)
    (h : pruneVisit rm p i er = Except.ok (some e)) :
    isNotExistB e = false
    ∧ (er = some e ∨ (rm p = some e ∧ isNotEmpty (some e) = Except.ok false)) := by
  cases er with
  | some e2 =>
    by_cases hn : isNotExistB e2 = true
    · simp [pruneVisit, hn] at h
    · simp [pruneVisit, hn] at h
      subst h
      exact ⟨by simpa using hn, Or.inl rfl⟩
  | none =>
    cases i with
    | none => simp [pruneVisit] at h
    | some info =>
      cases info with
      | file => simp [pruneVisit] at h
      | dir =>
        cases hrmp : rm p with
        | none => simp [pruneVisit, hrmp] at h
        | some e2 =>
          by_cases hn : isNotExistB e2 = true
          · simp [pruneVisit, hrmp, hn] at h
          · cases hne : isNotEmpty (some e2) with
            | error u => simp [pruneVisit, hrmp, hn, hne] at h
            | ok b =>
              cases b with
              | true => simp [pruneVisit, hrmp, hn, hne] at h
              | false =>
                simp [pruneVisit, hrmp, hn, hne] at h
                subst h
                exact ⟨by simpa using hn, Or.inr ⟨rfl, hne⟩⟩

mutual

/-- a pruning pass over a tree whose stat outcomes are all tolerated,
with all removal outcomes tolerated, completes without error. -/
theorem walkTree_prune_ok (rm : String → Option GoErr)
    (hrm : ∀ p, rmOkB (rm p) = true) (path : String) : ∀ t : FTree,
    treeStatOkB t = true →
    (walkTree (pruneVisit rm) path t).2 = Except.ok none
  | FTree.file se => by
    intro hst
    simp only [walkTree]
    exact pruneVisit_ok rm path _ se (hrm path) hst
  | FTree.dir le se cs => by
    intro hst
    simp only [treeStatOkB, Bool.and_eq_true] at hst
    cases le with
    | true =>
      simp only [walkTree]
      exact pruneVisit_ok rm path _ se (hrm path) hst.1
    | false =>
      have h := walkForest_prune_ok rm hrm path cs hst.2
      rcases hw : walkForest (pruneVisit rm) path cs with ⟨tr, res⟩
      rw [hw] at h
      have hres : res = Except.ok none := h
      subst hres
      simp only [walkTree, hw]
      exact pruneVisit_ok rm path _ se (hrm path) hst.1

/-- a pruning pass over a listing whose stat outcomes are all
tolerated, with all removal outcomes tolerated, completes without
error. -/
theorem walkForest_prune_ok (rm : String → Option GoErr)
    (hrm : ∀ p, rmOkB (rm p) = true) (path : String) : ∀ cs : FForest,
    forestStatOkB cs = true →
    (walkForest (pruneVisit rm) path cs).2 = Except.ok none
  | FForest.nil => by
    intro _
    rfl
  | FForest.cons n t rest => by
    intro hst
    simp only [forestStatOkB, Bool.and_eq_true] at hst
    cases hdir : t.isDirB with
    | false =>
      simp only [walkForest, hdir]
      exact walkForest_prune_ok rm hrm path rest hst.2
    | true =>
      have ht := walkTree_prune_ok rm hrm (path ++ "/" ++ n) t hst.1
      rcases hw : walkTree (pruneVisit rm) (path ++ "/" ++ n) t with ⟨tr, res⟩
      rw [hw] at ht
      have hres : res = Except.ok none := ht
      subst hres
      have hr := walkForest_prune_ok rm hrm path rest hst.2
      rcases hw2 : walkForest (pruneVisit rm) path rest with ⟨tr2, res2⟩
      rw [hw2] at hr
      simp only [walkForest, hdir, hw, hw2]
      exact hr

end

mutual

/-- any error result of a walk is the result of one visitor call. -/
theorem walkTree_err_origin (f : WalkFn) (path : String) : ∀ (t : FTree) (e : GoErr),
    (walkTree f path t).2 = Except.ok (some e) →
    ∃ p i er, f p i er = Except.ok (some e)
  | FTree.file se => by
    intro e h
    simp only [walkTree] at h
    exact ⟨path, _, se, h⟩
  | FTree.dir le se cs => by
    intro e h
    cases le with
    | true =>
      simp only [walkTree] at h
      exact ⟨path, _, se, h⟩
    | false =>
      rcases hw : walkForest f path cs with ⟨tr, res⟩
      rw [walkTree, hw] at h
      match res, h with
      | Except.ok none, h =>
        exact ⟨path, _, se, h⟩
      | Except.ok (some e2), h =>
        have he : e2 = e := by simpa using h
        subst he
        exact walkForest_err_origin f path cs e2 (by rw [hw])
      | Except.error u, h =>
        simp at h

/-- any error result of a listing walk is the result of one visitor
call. -/
theorem walkForest_err_origin (f : WalkFn) (path : String) :
    ∀ (cs : FForest) (e : GoErr),
    (walkForest f path cs).2 = Except.ok (some e) →
    ∃ p i er, f p i er = Except.ok (some e)
  | FForest.nil => by
    intro e h
    simp [walkForest] at h
  | FForest.cons n t rest => by
    intro e h
    cases hdir : t.isDirB with
    | false =>
      rw [walkForest, hdir] at h
      exact walkForest_err_origin f path rest e (by simpa using h)
    | true =>
      rcases hw : walkTree f (path ++ "/" ++ n) t with ⟨tr, res⟩
      rw [walkForest, hdir, hw] at h
      match res, h with
      | Except.ok none, h =>
        rcases hw2 : walkForest f path rest with ⟨tr2, res2⟩
        rw [hw2] at h
        exact walkForest_err_origin f path rest e (by rw [hw2]; simpa using h)
      | Except.ok (some e2), h =>
        have he : e2 = e := by simpa using h
        subst he
        exact walkTree_err_origin f (path ++ "/" ++ n) t e2 (by rw [hw])
      | Except.error u, h =>
        simp at h

end

mutual

/-- the walk of a tree performs at least one visit, returns exactly
the visitor's result at the last visit it performed, and every earlier
visit returned nil: the first visitor error is returned immediately
and aborts the walk, never swallowed. -/
theorem walkTree_last (f : WalkFn) (path : String) : ∀ t : FTree,
    ∃ tr0 v, (walkTree f path t).1 = tr0 ++ [v]
      ∧ (walkTree f path t).2 = f v.path v.info v.err
      ∧ ∀ u ∈ tr0, f u.path u.info u.err = Except.ok none
  | FTree.file se => by
    refine ⟨[], ⟨path, if se.isSome then none else some Info.file, se⟩, ?_, ?_, ?_⟩
    · simp [walkTree]
    · simp [walkTree]
    · intro u hu
      simp at hu
  | FTree.dir le se cs => by
    cases le with
    | true =>
      refine ⟨[], ⟨path, if se.isSome then none else some Info.dir, se⟩, ?_, ?_, ?_⟩
      · simp [walkTree]
      · simp [walkTree]
      · intro u hu
        simp at hu
    | false =>
      have hf := walkForest_last f path cs
      rcases hw : walkForest f path cs with ⟨tr, res⟩
      rw [hw] at hf
      rcases hf with ⟨h1, h2⟩ | ⟨tr0, v, h1, h2, h3⟩
      · simp only at h1 h2
        subst h1
        subst h2
        refine ⟨[], ⟨path, if se.isSome then none else some Info.dir, se⟩, ?_, ?_, ?_⟩
        · simp [walkTree, hw]
        · simp [walkTree, hw]
        · intro u hu
          simp at hu
      · simp only at h1 h2
        subst h1
        cases res with
        | error u =>
          refine ⟨tr0, v, ?_, ?_, h3⟩
          · simp [walkTree, hw]
          · simp only [walkTree, hw]
            exact h2
        | ok o =>
          cases o with
          | some e =>
            refine ⟨tr0, v, ?_, ?_, h3⟩
            · simp [walkTree, hw]
            · simp only [walkTree, hw]
              exact h2
          | none =>
            refine ⟨tr0 ++ [v],
              ⟨path, if se.isSome then none else some Info.dir, se⟩, ?_, ?_, ?_⟩
            · simp [walkTree, hw]
            · simp [walkTree, hw]
            · intro u hu
              rcases List.mem_append.mp hu with hu | hu
              · exact h3 u hu
              · simp at hu
                subst hu
                exact h2.symm

/-- the walk of a listing either performs no visit and returns nil, or
returns exactly the visitor's result at the last visit it performed,
every earlier visit having returned nil. -/
theorem walkForest_last (f : WalkFn) (path : String) : ∀ cs : FForest,
    ((walkForest f path cs).1 = [] ∧ (walkForest f path cs).2 = Except.ok none)
    ∨ ∃ tr0 v, (walkForest f path cs).1 = tr0 ++ [v]
        ∧ (walkForest f path cs).2 = f v.path v.info v.err
        ∧ ∀ u ∈ tr0, f u.path u.info u.err = Except.ok none
  | FForest.nil => Or.inl ⟨rfl, rfl⟩
  | FForest.cons n t rest => by
    cases hdir : t.isDirB with
    | false =>
      have h := walkForest_last f path rest
      simpa [walkForest, hdir] using h
    | true =>
      have ht := walkTree_last f (path ++ "/" ++ n) t
      rcases hw : walkTree f (path ++ "/" ++ n) t with ⟨tr, res⟩
      rw [hw] at ht
      rcases ht with ⟨tr0, v, h1, h2, h3⟩
      simp only at h1 h2
      subst h1
      cases res with
      | error u =>
        refine Or.inr ⟨tr0, v, ?_, ?_, h3⟩
        · simp [walkForest, hdir, hw]
        · simp only [walkForest, hdir, hw]
          exact h2
      | ok o =>
        cases o with
        | some e =>
          refine Or.inr ⟨tr0, v, ?_, ?_, h3⟩
          · simp [walkForest, hdir, hw]
          · simp only [walkForest, hdir, hw]
            exact h2
        | none =>
          have hr := walkForest_last f path rest
          rcases hw2 : walkForest f path rest with ⟨tr2, res2⟩
          rw [hw2] at hr
          rcases hr with ⟨hh1, hh2⟩ | ⟨tr0q, vq, hh1, hh2, hh3⟩
          · simp only at hh1 hh2
            subst hh1
            subst hh2
            refine Or.inr ⟨tr0, v, ?_, ?_, h3⟩
            · simp [walkForest, hdir, hw, hw2]
            · simp only [walkForest, hdir, hw, hw2]
              exact h2
          · simp only at hh1 hh2
            subst hh1
            refine Or.inr ⟨(tr0 ++ [v]) ++ tr0q, vq, ?_, ?_, ?_⟩
            · simp [walkForest, hdir, hw, hw2]
            · simp only [walkForest, hdir, hw, hw2]
              exact hh2
            · intro u hu
              rcases List.mem_append.mp hu with hu | hu
              · rcases List.mem_append.mp hu with hu | hu
                · exact h3 u hu
                · simp at hu
                  subst hu
                  exact h2.symm
              · exact hh3 u hu

end

/-- claim C6: during RemoveEmptyDirectories a removal outcome of
success, directory-no-longer-exists, or directory-not-empty is treated
as success and the pass continues - a pass all of whose stat and
removal outcomes are tolerated completes with nil; a not-exist error
met while stat-ing a path during the walk is likewise tolerated; any
error the pass returns is a non-tolerated filesystem error, surfaced
unchanged from the visit at which the walk stopped; and conversely
every other filesystem error IS returned and aborts the pass: the
visitor returns a non-tolerated removal or stat error as its result,
and the pass's overall result always equals the visitor's result at
the last visit performed while every earlier visit returned nil - so
the first non-tolerated error a visit produces becomes the result of
the pass right there, never swallowed. -/
theorem c6_remove_empty_directories (rm : String → Option GoErr) (r : String)
    (t : FTree) :
    ((∀ p, rmOkB (rm p) = true) → treeStatOkB t = true →
      removeEmptyDirectories rm r t = Except.ok none)
    ∧ (∀ name, rm name = none →
        pruneVisit rm name (some Info.dir) none = Except.ok none)
    ∧ (∀ name e, rm name = some e → isNotExistB e = true →
        pruneVisit rm name (some Info.dir) none = Except.ok none)
    ∧ (∀ name op pp,
        rm name = some (GoErr.pathError op pp (GoErr.errno ENOTEMPTY)) →
        pruneVisit rm name (some Info.dir) none = Except.ok none)
    ∧ (∀ name i e, isNotExistB e = true →
        pruneVisit rm name i (some e) = Except.ok none)
    ∧ (∀ e, removeEmptyDirectories rm r t = Except.ok (some e) →
        isNotExistB e = false
        ∧ ∃ p i er, pruneVisit rm p i er = Except.ok (some e)
            ∧ (er = some e ∨
                (rm p = some e ∧ isNotEmpty (some e) = Except.ok false)))
    ∧ (∀ name e, rm name = some e → isNotExistB e = false →
        isNotEmpty (some e) = Except.ok false →
        pruneVisit rm name (some Info.dir) none = Except.ok (some e))
    ∧ (∀ name i e, isNotExistB e = false →
        pruneVisit rm name i (some e) = Except.ok (some e))
    ∧ (∃ tr0 v, (walkTree (pruneVisit rm) r t).1 = tr0 ++ [v]
        ∧ removeEmptyDirectories rm r t = pruneVisit rm v.path v.info v.err
        ∧ ∀ u ∈ tr0, pruneVisit rm u.path u.info u.err = Except.ok none) := by
  refine ⟨?_, ?_, ?_, ?_, ?_, ?_, ?_, ?_, ?_⟩
  · intro hrm hst
    exact walkTree_prune_ok rm hrm r t hst
  · intro name h
    simp [pruneVisit, h]
  · intro name e h he
    simp [pruneVisit, h, he]
  · intro name op pp h
    simp [pruneVisit, h, isNotExistB, isNotEmpty, ENOENT, ENOTEMPTY]
  · intro name i e he
    simp [pruneVisit, he]
  · intro e h
    rcases walkTree_err_origin (pruneVisit rm) r t e h with ⟨p, i, er, hpe⟩
    have hchar := pruneVisit_err rm p i er e hpe
    exact ⟨hchar.1, p, i, er, hpe, hchar.2⟩
  · intro name e h he hne
    simp [pruneVisit, h, he, hne]
  · intro name i e he
    simp [pruneVisit, he]
  · exact walkTree_last (pruneVisit rm) r t

/-- witness for C6: a pass over a small tree in which one removal
reports not-empty and the others succeed completes without error; and,
at the same tree, a non-tolerated removal outcome (EACCES wrapped in a
path error) is returned by its visit and becomes the result of the
pass, aborting it. -/
theorem c6_witness :
    ((∀ p, rmOkB ((fun q => if q = "r/d" then
        some (GoErr.pathError "remove" "r/d" (GoErr.errno ENOTEMPTY))
      else none) p) = true)
    ∧ treeStatOkB (FTree.dir false none
        (FForest.cons "d" (FTree.dir false none FForest.nil) FForest.nil)) = true
    ∧ removeEmptyDirectories
        (fun q => if q = "r/d" then
          some (GoErr.pathError "remove" "r/d" (GoErr.errno ENOTEMPTY))
        else none) "r"
        (FTree.dir false none
          (FForest.cons "d" (FTree.dir false none FForest.nil) FForest.nil)) =
      Except.ok none)
    ∧ ((fun q => if q = "r/d" then
          some (GoErr.pathError "remove" "r/d" (GoErr.errno 13))
        else none) "r/d" = some (GoErr.pathError "remove" "r/d" (GoErr.errno 13))
      ∧ isNotExistB (GoErr.pathError "remove" "r/d" (GoErr.errno 13)) = false
      ∧ isNotEmpty (some (GoErr.pathError "remove" "r/d" (GoErr.errno 13))) =
          Except.ok false
      ∧ pruneVisit (fun q => if q = "r/d" then
            some (GoErr.pathError "remove" "r/d" (GoErr.errno 13))
          else none) "r/d" (some Info.dir) none =
          Except.ok (some (GoErr.pathError "remove" "r/d" (GoErr.errno 13)))
      ∧ removeEmptyDirectories
          (fun q => if q = "r/d" then
            some (GoErr.pathError "remove" "r/d" (GoErr.errno 13))
          else none) "r"
          (FTree.dir false none
            (FForest.cons "d" (FTree.dir false none FForest.nil) FForest.nil)) =
        Except.ok (some (GoErr.pathError "remove" "r/d" (GoErr.errno 13)))) :=
  ⟨⟨fun p => by
      by_cases hp : p = "r/d" <;> simp [hp, rmOkB, ENOENT, ENOTEMPTY],
    rfl,
    (c6_remove_empty_directories
       (fun q => if q = "r/d" then
         some (GoErr.pathError "remove" "r/d" (GoErr.errno ENOTEMPTY))
       else none) "r"
       (FTree.dir false none
         (FForest.cons "d" (FTree.dir false none FForest.nil) FForest.nil))).1
      (fun p => by
        by_cases hp : p = "r/d" <;> simp [hp, rmOkB, ENOENT, ENOTEMPTY])
      rfl⟩,
   ⟨rfl, rfl, rfl,
    (c6_remove_empty_directories
       (fun q => if q = "r/d" then
         some (GoErr.pathError "remove" "r/d" (GoErr.errno 13))
       else none) "r"
       (FTree.dir false none
         (FForest.cons "d" (FTree.dir false none FForest.nil)
           FForest.nil))).2.2.2.2.2.2.1 "r/d"
      (GoErr.pathError "remove" "r/d" (GoErr.errno 13)) rfl rfl rfl,
    rfl⟩⟩

end Gojekyll
